import Mathlib

/-!
A shallow embedding of `EscrowContract.sol`.

This file embeds the on-chain escrow ledger of the repository
(`contracts/contracts/EscrowContract.sol`, Solidity ^0.8.20) as a pure
state machine in Lean and proves properties of its reachable states.

Modelling conventions:

* `uint256` values are `Nat`.  Solidity 0.8 arithmetic is *checked*: an
  overflowing `+` or `*` reverts the transaction instead of wrapping, so we
  guard every source-level arithmetic operation that can overflow with an
  explicit bound `UINT = 2 ^ 256` and return an error when it would revert.
  (`milestone.amount - freelancerAmount` cannot underflow because
  `freelancerAmount = amount * pct / 100 ≤ amount` whenever `pct ≤ 100`,
  which the contract checks first, so truncated `Nat` subtraction agrees
  with the checked Solidity subtraction there.)
* Addresses are `Nat`; the zero address is `0`.  `msg.sender` is an explicit
  `sender` argument of every operation.
* The storage mappings `projects`, `milestones` and `disputes` use densely
  assigned counters (`projectCounter++`, `disputeCounter++`), and every
  struct carries an `exists` flag set exactly for the initialised slots, so
  we embed each mapping as a `List` indexed by the id: `l[i]? = none` plays
  the role of `exists = false`, and the counters are the list lengths.  The
  per-project milestone mapping `milestones[projectId][milestoneId]` is
  stored inside the project (milestones are only ever created together with
  their project, with ids `0 .. amounts.length - 1`); the source's
  `milestoneCount` field is the length of that list.
* `address(this).balance` is the `balance` field of the state.
* Every state-changing entry point returns `Except String EscrowState`:
  `Except.error msg` models `revert(msg)` — by EVM semantics a revert undoes
  *all* state changes of the call (including the implicit receipt of
  `msg.value`), so an error result leaves the caller with the unchanged
  pre-state.
* An outbound `call{value: v}` can fail (the recipient rejects, or the
  contract balance is smaller than `v`); the source then reverts the whole
  operation.  We pass the environment's choice whether the recipient
  accepts as an explicit `Bool` argument and check `v ≤ balance` as the EVM
  does.  The transfers in the source happen textually after the state
  updates, inside the same atomic transaction; since a failed transfer
  reverts everything, performing the failure checks before building the
  result state is observationally identical.
* Events and the `nonReentrant` guard are not modelled: operations here are
  atomic by construction, which is exactly what the guard enforces.
-/

/-- Bound `2 ^ 256`, the number of values of a `uint256`; checked Solidity
arithmetic reverts when a result would reach this bound. -/
def UINT : Nat := 2 ^ 256

/-- Source `enum ProjectStatus { Created, Funded, Active, Completed, Cancelled }` -/
inductive ProjectStatus where
  | Created
  | Funded
  | Active
  | Completed
  | Cancelled
deriving DecidableEq, Repr

/-- Source `enum MilestoneStatus { Pending, Submitted, Approved, Disputed, Paid, Refunded }` -/
inductive MilestoneStatus where
  | Pending
  | Submitted
  | Approved
  | Disputed
  | Paid
  | Refunded
deriving DecidableEq, Repr

/-- Source `struct Milestone` (the `exists` flag is presence in the list). -/
structure Milestone where
  amount : Nat
  status : MilestoneStatus
deriving DecidableEq, Repr

/-- Source `struct Project`; its milestone mapping is stored inline, so
`milestoneCount` is `milestones.length`. -/
structure Project where
  client : Nat
  freelancer : Nat
  arbitrator : Nat
  totalBudget : Nat
  totalPaid : Nat
  milestones : List Milestone
  status : ProjectStatus
deriving DecidableEq, Repr

/-- Source `struct Dispute` (the `exists` flag is presence in the list). -/
structure Dispute where
  projectId : Nat
  milestoneId : Nat
  raisedBy : Nat
  resolved : Bool
deriving DecidableEq, Repr

/-- The contract's storage plus its ether balance.  `projectCounter` and
`disputeCounter` are `projects.length` and `disputes.length`. -/
structure EscrowState where
  projects : List Project
  disputes : List Dispute
  balance : Nat
deriving DecidableEq, Repr

/-- The budget-accumulation loop of `createProject`: for each amount,
`require(amount > 0)` and the checked addition `totalBudget += amount`
(reverting at `2 ^ 256`). -/
def sumBudget (acc : Nat) : List Nat → Except String Nat
  | [] => Except.ok acc
  | a :: rest =>
    if a = 0 then Except.error "Milestone amount must be greater than 0"
    else if UINT ≤ acc + a then Except.error "arithmetic overflow"
    else sumBudget (acc + a) rest

/-- Operation `createProject(_freelancer, _arbitrator, _milestoneAmounts)`; the new
project's id is `s.projects.length` (the old `projectCounter`). -/
def createProject (s : EscrowState) (sender freelancer arbitrator : Nat)
    (milestoneAmounts : List Nat) : Except String EscrowState :=
  if freelancer = 0 then Except.error "Invalid freelancer address"
  else if arbitrator = 0 then Except.error "Invalid arbitrator address"
  else if milestoneAmounts.length = 0 then Except.error "At least one milestone required"
  else if freelancer = sender then Except.error "Client and freelancer cannot be the same"
  else
    match sumBudget 0 milestoneAmounts with
    | Except.error e => Except.error e
    | Except.ok totalBudget =>
      Except.ok
        { s with
          projects := s.projects ++
            [{ client := sender
               freelancer := freelancer
               arbitrator := arbitrator
               totalBudget := totalBudget
               totalPaid := 0
               milestones := milestoneAmounts.map fun a => ⟨a, MilestoneStatus.Pending⟩
               status := ProjectStatus.Created }] }

/-- Operation `fundProject(_projectId)` with `msg.value = msgValue`; modifiers
`projectExists` then `onlyClient`, then the status and amount checks. -/
def fundProject (s : EscrowState) (sender projectId msgValue : Nat) :
    Except String EscrowState :=
  match s.projects[projectId]? with
  | none => Except.error "Project does not exist"
  | some project =>
    if project.client ≠ sender then Except.error "Only client can call this"
    else if project.status ≠ ProjectStatus.Created then
      Except.error "Project already funded or completed"
    else if msgValue ≠ project.totalBudget then Except.error "Amount must match total budget"
    else
      Except.ok
        { s with
          projects := s.projects.set projectId { project with status := ProjectStatus.Funded }
          balance := s.balance + msgValue }

/-- Operation `submitMilestone(_projectId, _milestoneId)`; modifiers `projectExists`,
`milestoneExists`, `onlyFreelancer`. -/
def submitMilestone (s : EscrowState) (sender projectId milestoneId : Nat) :
    Except String EscrowState :=
  match s.projects[projectId]? with
  | none => Except.error "Project does not exist"
  | some project =>
    match project.milestones[milestoneId]? with
    | none => Except.error "Milestone does not exist"
    | some milestone =>
      if project.freelancer ≠ sender then Except.error "Only freelancer can call this"
      else if ¬ (project.status = ProjectStatus.Funded ∨ project.status = ProjectStatus.Active)
        then Except.error "Project not funded"
      else if milestone.status ≠ MilestoneStatus.Pending then
        Except.error "Milestone already submitted or processed"
      else
        Except.ok
          { s with
            projects := s.projects.set projectId
              { project with
                milestones := project.milestones.set milestoneId
                  { milestone with status := MilestoneStatus.Submitted }
                status :=
                  if project.status = ProjectStatus.Funded then ProjectStatus.Active
                  else project.status } }

/-- The completion check shared by `_releaseMilestonePayment` and
`resolveDispute` (lines 277–281 and 370–374 of the source):
`if (project.totalPaid == project.totalBudget) { project.status = Completed; }` -/
def completeIfPaid (p : Project) : Project :=
  if p.totalPaid = p.totalBudget then { p with status := ProjectStatus.Completed } else p

/-- Internal `_releaseMilestonePayment(_projectId, _milestoneId)`: requires the
milestone to be `Approved`, marks it `Paid`, `totalPaid += amount` (checked),
then transfers `amount` to the freelancer (reverting everything on failure)
and finally promotes the project to `Completed` when
`totalPaid == totalBudget`.  A missing project or milestone reads back as
the zeroed struct, whose status `Pending` fails the `Approved` check. -/
def releaseMilestonePayment (s : EscrowState) (projectId milestoneId : Nat)
    (freelancerCallOk : Bool) : Except String EscrowState :=
  match s.projects[projectId]? with
  | none => Except.error "Milestone not approved"
  | some project =>
    match project.milestones[milestoneId]? with
    | none => Except.error "Milestone not approved"
    | some milestone =>
      if milestone.status ≠ MilestoneStatus.Approved then Except.error "Milestone not approved"
      else if UINT ≤ project.totalPaid + milestone.amount then
        Except.error "arithmetic overflow"
      else if ¬ (freelancerCallOk = true ∧ milestone.amount ≤ s.balance) then
        Except.error "Payment transfer failed"
      else
        Except.ok
          { s with
            projects := s.projects.set projectId
              (completeIfPaid
                { project with
                  milestones := project.milestones.set milestoneId
                    { milestone with status := MilestoneStatus.Paid }
                  totalPaid := project.totalPaid + milestone.amount })
            balance := s.balance - milestone.amount }

/-- Operation `approveMilestone(_projectId, _milestoneId)`; modifiers `projectExists`,
`milestoneExists`, `onlyClient`; marks the milestone `Approved` and
immediately calls `_releaseMilestonePayment` within the same transaction. -/
def approveMilestone (s : EscrowState) (sender projectId milestoneId : Nat)
    (freelancerCallOk : Bool) : Except String EscrowState :=
  match s.projects[projectId]? with
  | none => Except.error "Project does not exist"
  | some project =>
    match project.milestones[milestoneId]? with
    | none => Except.error "Milestone does not exist"
    | some milestone =>
      if project.client ≠ sender then Except.error "Only client can call this"
      else if project.status ≠ ProjectStatus.Active then Except.error "Project not active"
      else if milestone.status ≠ MilestoneStatus.Submitted then
        Except.error "Milestone not submitted"
      else
        releaseMilestonePayment
          { s with
            projects := s.projects.set projectId
              { project with
                milestones := project.milestones.set milestoneId
                  { milestone with status := MilestoneStatus.Approved } } }
          projectId milestoneId freelancerCallOk

/-- Operation `raiseDispute(_projectId, _milestoneId)`; modifiers `projectExists`,
`milestoneExists`; the new dispute's id is `s.disputes.length` (the old
`disputeCounter`). -/
def raiseDispute (s : EscrowState) (sender projectId milestoneId : Nat) :
    Except String EscrowState :=
  match s.projects[projectId]? with
  | none => Except.error "Project does not exist"
  | some project =>
    match project.milestones[milestoneId]? with
    | none => Except.error "Milestone does not exist"
    | some milestone =>
      if ¬ (sender = project.client ∨ sender = project.freelancer) then
        Except.error "Only client or freelancer can raise dispute"
      else if project.status ≠ ProjectStatus.Active then Except.error "Project not active"
      else if milestone.status ≠ MilestoneStatus.Submitted then
        Except.error "Milestone must be submitted to dispute"
      else
        Except.ok
          { s with
            projects := s.projects.set projectId
              { project with
                milestones := project.milestones.set milestoneId
                  { milestone with status := MilestoneStatus.Disputed } }
            disputes := s.disputes ++ [⟨projectId, milestoneId, sender, false⟩] }

/-- Lines 343–344 of the source:
`freelancerAmount = (milestone.amount * _freelancerPercentage) / 100;`
`clientAmount = milestone.amount - freelancerAmount;` -/
def splitAmounts (amount freelancerPercentage : Nat) : Nat × Nat :=
  let freelancerAmount := amount * freelancerPercentage / 100
  (freelancerAmount, amount - freelancerAmount)

/-- The milestone-status branch of `resolveDispute` (lines 347–355): `Paid`
when the freelancer gets everything, `Refunded` when the computed freelancer
amount is zero, `Paid` on a partial split. -/
def resolvedMilestone (m : Milestone) (freelancerAmount : Nat) : Milestone :=
  if freelancerAmount = m.amount then { m with status := MilestoneStatus.Paid }
  else if freelancerAmount = 0 then { m with status := MilestoneStatus.Refunded }
  else { m with status := MilestoneStatus.Paid }

/-- The `totalPaid` branch of `resolveDispute` (lines 347–355): the full
amount at 100 %, unchanged on a refund, the freelancer share on a partial
split. -/
def resolvedTotalPaid (p : Project) (m : Milestone) (freelancerAmount : Nat) : Nat :=
  if freelancerAmount = m.amount then p.totalPaid + m.amount
  else if freelancerAmount = 0 then p.totalPaid
  else p.totalPaid + freelancerAmount

/-- Operation `resolveDispute(_disputeId, _freelancerPercentage)`.  A missing project
reads back as the zeroed struct (arbitrator = address 0, every milestone of
it `Pending`), so the call reverts at the arbitrator check for any nonzero
sender and at the `Disputed` check for the zero sender.  The checked
multiplication `milestone.amount * pct` and the checked additions to
`totalPaid` guard against `2 ^ 256` (the branch adding `milestone.amount`
adds exactly `freelancerAmount` since there `freelancerAmount = amount`). -/
def resolveDispute (s : EscrowState) (sender disputeId freelancerPercentage : Nat)
    (freelancerCallOk clientCallOk : Bool) : Except String EscrowState :=
  match s.disputes[disputeId]? with
  | none => Except.error "Dispute does not exist"
  | some dispute =>
    if dispute.resolved = true then Except.error "Dispute already resolved"
    else
      match s.projects[dispute.projectId]? with
      | none =>
        if sender = 0 then Except.error "Milestone not disputed"
        else Except.error "Only arbitrator can resolve"
      | some project =>
        if sender ≠ project.arbitrator then Except.error "Only arbitrator can resolve"
        else
          match project.milestones[dispute.milestoneId]? with
          | none => Except.error "Milestone not disputed"
          | some milestone =>
            if milestone.status ≠ MilestoneStatus.Disputed then
              Except.error "Milestone not disputed"
            else if 100 < freelancerPercentage then Except.error "Percentage must be 0-100"
            else if UINT ≤ milestone.amount * freelancerPercentage then
              Except.error "arithmetic overflow"
            else
              let freelancerAmount := (splitAmounts milestone.amount freelancerPercentage).1
              let clientAmount := (splitAmounts milestone.amount freelancerPercentage).2
              if UINT ≤ project.totalPaid + freelancerAmount then
                Except.error "arithmetic overflow"
              else if 0 < freelancerAmount ∧
                  ¬ (freelancerCallOk = true ∧ freelancerAmount ≤ s.balance) then
                Except.error "Freelancer payment failed"
              else if 0 < clientAmount ∧
                  ¬ (clientCallOk = true ∧ clientAmount ≤ s.balance - freelancerAmount) then
                Except.error "Client refund failed"
              else
                Except.ok
                  { s with
                    projects := s.projects.set dispute.projectId
                      (completeIfPaid
                        { project with
                          milestones := project.milestones.set dispute.milestoneId
                            (resolvedMilestone milestone freelancerAmount)
                          totalPaid := resolvedTotalPaid project milestone freelancerAmount })
                    disputes := s.disputes.set disputeId { dispute with resolved := true }
                    balance := s.balance - (freelancerAmount + clientAmount) }

/-- One external call into the contract: the operation tag plus all of its
arguments, including the environment's choices for outbound transfers. -/
inductive Op where
  | create (sender freelancer arbitrator : Nat) (milestoneAmounts : List Nat)
  | fund (sender projectId msgValue : Nat)
  | submit (sender projectId milestoneId : Nat)
  | approve (sender projectId milestoneId : Nat) (freelancerCallOk : Bool)
  | dispute (sender projectId milestoneId : Nat)
  | resolve (sender disputeId freelancerPercentage : Nat) (freelancerCallOk clientCallOk : Bool)
deriving DecidableEq, Repr

/-- Dispatch one external call. -/
def applyOp (s : EscrowState) : Op → Except String EscrowState
  | Op.create sender f a ams => createProject s sender f a ams
  | Op.fund sender pid v => fundProject s sender pid v
  | Op.submit sender pid mid => submitMilestone s sender pid mid
  | Op.approve sender pid mid ok => approveMilestone s sender pid mid ok
  | Op.dispute sender pid mid => raiseDispute s sender pid mid
  | Op.resolve sender did pct okF okC => resolveDispute s sender did pct okF okC

/-- The freshly deployed contract: empty storage, zero balance. -/
def initialState : EscrowState := ⟨[], [], 0⟩

/-- Relation `ReachableFrom s t`: state `t` arises from `s` by a finite sequence of
*completed* (non-reverting) operations. -/
inductive ReachableFrom : EscrowState → EscrowState → Prop where
  | refl {s : EscrowState} : ReachableFrom s s
  | step {s t t' : EscrowState} {op : Op} :
      ReachableFrom s t → applyOp t op = Except.ok t' → ReachableFrom s t'

/-- A state of the deployed contract after any sequence of completed
operations. -/
def Reachable (s : EscrowState) : Prop := ReachableFrom initialState s

/-! ## Ledger accounting -/

/-- The amount a milestone still holds in custody: its full amount until it
reaches a terminal status (`Paid` to the freelancer, or `Refunded` — where
the whole amount, or on a partial split the remainder, has left custody). -/
def heldWeight (m : Milestone) : Nat :=
  if m.status = MilestoneStatus.Paid ∨ m.status = MilestoneStatus.Refunded then 0
  else m.amount

/-- The amount of a milestone unless it has been marked `Paid`. -/
def unpaidWeight (m : Milestone) : Nat :=
  if m.status = MilestoneStatus.Paid then 0 else m.amount

/-- Custodied amount of a milestone list. -/
def heldAmount (ms : List Milestone) : Nat := (ms.map heldWeight).sum

/-- Sum of the amounts of the non-`Paid` milestones. -/
def unpaidAmount (ms : List Milestone) : Nat := (ms.map unpaidWeight).sum

/-- Sum of all milestone amounts. -/
def totalAmount (ms : List Milestone) : Nat := (ms.map Milestone.amount).sum

/-- Ether a single project keeps in the contract: nothing before funding,
afterwards the custodied amounts of its milestones. -/
def projectContribution (p : Project) : Nat :=
  if p.status = ProjectStatus.Created then 0 else heldAmount p.milestones

/-- The funds the ledger's storage accounts for; the central invariant is
`s.balance = custody s` for every reachable `s`. -/
def custody (s : EscrowState) : Nat := (s.projects.map projectContribution).sum

/-! ## The inductive invariant -/

/-- Per-project invariant maintained by every operation. -/
structure ProjInv (p : Project) : Prop where
  budget_eq : p.totalBudget = totalAmount p.milestones
  amounts_pos : ∀ m ∈ p.milestones, 0 < m.amount
  ms_nonempty : p.milestones ≠ []
  paid_bound : p.totalPaid + unpaidAmount p.milestones ≤ p.totalBudget
  completed_iff : p.status = ProjectStatus.Completed ↔ p.totalPaid = p.totalBudget
  prefunded_pending :
    p.status = ProjectStatus.Created ∨ p.status = ProjectStatus.Funded →
      ∀ m ∈ p.milestones, m.status = MilestoneStatus.Pending
  prefunded_zero :
    p.status = ProjectStatus.Created ∨ p.status = ProjectStatus.Funded → p.totalPaid = 0
  no_approved : ∀ m ∈ p.milestones, m.status ≠ MilestoneStatus.Approved

/-- Global invariant: every stored project is well-formed and the contract
balance matches the custody its storage accounts for. -/
structure LedgerInv (s : EscrowState) : Prop where
  projs : ∀ p ∈ s.projects, ProjInv p
  bal : s.balance = custody s

/-! ## Concrete executions

Four concrete operation sequences used to witness the theorems below.
Chain A: one milestone of 10, disputed and resolved at 50 % (partial split).
Chain B: milestones [1, 1], the first disputed and resolved at 0 % (refund).
Chain C: one milestone of 1, disputed and resolved at 50 % (the computed
freelancer share floors to 0).
Chain D: the client is also the arbitrator; a 100 % resolution and a
milestone approval drive the project to `Completed`. -/

def demoProjA5 : Project :=
  ⟨1, 2, 3, 10, 5, [⟨10, MilestoneStatus.Paid⟩], ProjectStatus.Active⟩

def demoA1 : EscrowState :=
  ⟨[⟨1, 2, 3, 10, 0, [⟨10, MilestoneStatus.Pending⟩], ProjectStatus.Created⟩], [], 0⟩

def demoA2 : EscrowState :=
  ⟨[⟨1, 2, 3, 10, 0, [⟨10, MilestoneStatus.Pending⟩], ProjectStatus.Funded⟩], [], 10⟩

def demoA3 : EscrowState :=
  ⟨[⟨1, 2, 3, 10, 0, [⟨10, MilestoneStatus.Submitted⟩], ProjectStatus.Active⟩], [], 10⟩

def demoA4 : EscrowState :=
  ⟨[⟨1, 2, 3, 10, 0, [⟨10, MilestoneStatus.Disputed⟩], ProjectStatus.Active⟩],
    [⟨0, 0, 2, false⟩], 10⟩

def demoA5 : EscrowState := ⟨[demoProjA5], [⟨0, 0, 2, true⟩], 0⟩

def demoProjB1 : Project :=
  ⟨1, 2, 3, 2, 0, [⟨1, MilestoneStatus.Pending⟩, ⟨1, MilestoneStatus.Pending⟩],
    ProjectStatus.Created⟩

def demoB1 : EscrowState := ⟨[demoProjB1], [], 0⟩

def demoB2 : EscrowState :=
  ⟨[⟨1, 2, 3, 2, 0, [⟨1, MilestoneStatus.Pending⟩, ⟨1, MilestoneStatus.Pending⟩],
      ProjectStatus.Funded⟩], [], 2⟩

def demoB3 : EscrowState :=
  ⟨[⟨1, 2, 3, 2, 0, [⟨1, MilestoneStatus.Submitted⟩, ⟨1, MilestoneStatus.Pending⟩],
      ProjectStatus.Active⟩], [], 2⟩

def demoB4 : EscrowState :=
  ⟨[⟨1, 2, 3, 2, 0, [⟨1, MilestoneStatus.Disputed⟩, ⟨1, MilestoneStatus.Pending⟩],
      ProjectStatus.Active⟩], [⟨0, 0, 2, false⟩], 2⟩

def demoProjB5 : Project :=
  ⟨1, 2, 3, 2, 0, [⟨1, MilestoneStatus.Refunded⟩, ⟨1, MilestoneStatus.Pending⟩],
    ProjectStatus.Active⟩

def demoB5 : EscrowState := ⟨[demoProjB5], [⟨0, 0, 2, true⟩], 1⟩

def demoC1 : EscrowState :=
  ⟨[⟨1, 2, 3, 1, 0, [⟨1, MilestoneStatus.Pending⟩], ProjectStatus.Created⟩], [], 0⟩

def demoC2 : EscrowState :=
  ⟨[⟨1, 2, 3, 1, 0, [⟨1, MilestoneStatus.Pending⟩], ProjectStatus.Funded⟩], [], 1⟩

def demoC3 : EscrowState :=
  ⟨[⟨1, 2, 3, 1, 0, [⟨1, MilestoneStatus.Submitted⟩], ProjectStatus.Active⟩], [], 1⟩

def demoC4 : EscrowState :=
  ⟨[⟨1, 2, 3, 1, 0, [⟨1, MilestoneStatus.Disputed⟩], ProjectStatus.Active⟩],
    [⟨0, 0, 2, false⟩], 1⟩

def demoProjC5 : Project :=
  ⟨1, 2, 3, 1, 0, [⟨1, MilestoneStatus.Refunded⟩], ProjectStatus.Active⟩

def demoC5 : EscrowState := ⟨[demoProjC5], [⟨0, 0, 2, true⟩], 0⟩

def demoD1 : EscrowState :=
  ⟨[⟨1, 2, 1, 2, 0, [⟨1, MilestoneStatus.Pending⟩, ⟨1, MilestoneStatus.Pending⟩],
      ProjectStatus.Created⟩], [], 0⟩

def demoD2 : EscrowState :=
  ⟨[⟨1, 2, 1, 2, 0, [⟨1, MilestoneStatus.Pending⟩, ⟨1, MilestoneStatus.Pending⟩],
      ProjectStatus.Funded⟩], [], 2⟩

def demoD3 : EscrowState :=
  ⟨[⟨1, 2, 1, 2, 0, [⟨1, MilestoneStatus.Submitted⟩, ⟨1, MilestoneStatus.Pending⟩],
      ProjectStatus.Active⟩], [], 2⟩

def demoD4 : EscrowState :=
  ⟨[⟨1, 2, 1, 2, 0, [⟨1, MilestoneStatus.Disputed⟩, ⟨1, MilestoneStatus.Pending⟩],
      ProjectStatus.Active⟩], [⟨0, 0, 2, false⟩], 2⟩

def demoD5 : EscrowState :=
  ⟨[⟨1, 2, 1, 2, 1, [⟨1, MilestoneStatus.Paid⟩, ⟨1, MilestoneStatus.Pending⟩],
      ProjectStatus.Active⟩], [⟨0, 0, 2, true⟩], 1⟩

def demoD6 : EscrowState :=
  ⟨[⟨1, 2, 1, 2, 1, [⟨1, MilestoneStatus.Paid⟩, ⟨1, MilestoneStatus.Submitted⟩],
      ProjectStatus.Active⟩], [⟨0, 0, 2, true⟩], 1⟩

def demoProjD7 : Project :=
  ⟨1, 2, 1, 2, 2, [⟨1, MilestoneStatus.Paid⟩, ⟨1, MilestoneStatus.Paid⟩],
    ProjectStatus.Completed⟩

def demoD7 : EscrowState := ⟨[demoProjD7], [⟨0, 0, 2, true⟩], 0⟩

/-! ## Spec-side definitions (refinement comparison) -/

/-- Following the specification's words: a project is *fully resolved* when
every milestone has reached a terminal status (`Paid` or `Refunded`). -/
def projectFullyResolved (p : Project) : Bool :=
  p.milestones.all fun m =>
    m.status == MilestoneStatus.Paid || m.status == MilestoneStatus.Refunded

/-- Following the specification's words: "the ledger's total custodied
balance equals the sum over all projects of `totalBudget - totalPaid` for
projects not yet fully resolved, plus zero for fully resolved ones". -/
def specClaimedCustody (s : EscrowState) : Nat :=
  (s.projects.map fun p =>
    if projectFullyResolved p then 0 else p.totalBudget - p.totalPaid).sum

/-! ## Generic list lemmas -/

theorem sum_map_set {α : Type} (f : α → Nat) (l : List α) (i : Nat) (a : α)
    (h : i < l.length) :
    ((l.set i a).map f).sum + f (l.get ⟨i, h⟩) = (l.map f).sum + f a := by
  induction l generalizing i with
  | nil => simp at h
  | cons x xs ih =>
    cases i with
    | zero => simp [List.set_cons_zero]; omega
    | succ n =>
      have hn : n < xs.length := by simpa using h
      have := ih n hn
      simp only [List.set_cons_succ, List.map_cons, List.sum_cons, List.get_cons_succ]
      omega

theorem forall_mem_set {α : Type} {P : α → Prop} {l : List α} {i : Nat} {a : α}
    (hl : ∀ x ∈ l, P x) (ha : P a) : ∀ x ∈ l.set i a, P x := by
  intro x hx
  rcases List.mem_or_eq_of_mem_set hx with hx' | rfl
  · exact hl x hx'
  · exact ha

theorem getElem?_mem_of_some {α : Type} {l : List α} {i : Nat} {a : α}
    (h : l[i]? = some a) : a ∈ l := by
  rcases List.getElem?_eq_some.mp h with ⟨hlt, rfl⟩
  exact List.getElem_mem hlt

theorem weight_le_sum (f : Milestone → Nat) {ms : List Milestone} {i : Nat} {m : Milestone}
    (h : ms[i]? = some m) : f m ≤ (ms.map f).sum := by
  have hm : f m ∈ ms.map f := List.mem_map_of_mem f (getElem?_mem_of_some h)
  exact List.single_le_sum (fun x _ => Nat.zero_le x) _ hm

/-! ## Characterisation of `sumBudget` -/

theorem sumBudget_ok {acc tb : Nat} {amounts : List Nat}
    (h : sumBudget acc amounts = Except.ok tb) :
    tb = acc + amounts.sum ∧ (∀ a ∈ amounts, 0 < a) ∧ (amounts ≠ [] → acc < tb) := by
  induction amounts generalizing acc with
  | nil =>
    simp only [sumBudget, Except.ok.injEq] at h
    subst h
    exact ⟨by simp, by simp, by simp⟩
  | cons a rest ih =>
    simp only [sumBudget] at h
    split at h
    · simp at h
    split at h
    · simp at h
    · rename_i ha hov
      obtain ⟨htb, hpos, _⟩ := ih h
      have hsum : (a :: rest).sum = a + rest.sum := List.sum_cons
      refine ⟨by omega, ?_, fun _ => by omega⟩
      intro x hx
      rcases List.mem_cons.mp hx with rfl | hx'
      · omega
      · exact hpos x hx'

/-! ## Inversion lemmas: what a successful operation did -/

theorem createProject_ok {s : EscrowState} {sender f a : Nat} {ams : List Nat}
    {s' : EscrowState} (h : createProject s sender f a ams = Except.ok s') :
    f ≠ 0 ∧ a ≠ 0 ∧ ams ≠ [] ∧ f ≠ sender ∧
      ∃ tb, sumBudget 0 ams = Except.ok tb ∧
        s' = { s with
                projects := s.projects ++
                  [{ client := sender
                     freelancer := f
                     arbitrator := a
                     totalBudget := tb
                     totalPaid := 0
                     milestones := ams.map fun x => ⟨x, MilestoneStatus.Pending⟩
                     status := ProjectStatus.Created }] } := by
  unfold createProject at h
  split at h
  · simp at h
  split at h
  · simp at h
  split at h
  · simp at h
  split at h
  · simp at h
  rename_i hf ha hlen hfs
  split at h
  · simp at h
  · rename_i tb htb
    refine ⟨hf, ha, by simpa using hlen, hfs, tb, htb, ?_⟩
    injection h with h
    exact h.symm

theorem fundProject_ok {s : EscrowState} {sender pid v : Nat} {s' : EscrowState}
    (h : fundProject s sender pid v = Except.ok s') :
    ∃ p, s.projects[pid]? = some p ∧ p.client = sender ∧
      p.status = ProjectStatus.Created ∧ v = p.totalBudget ∧
      s' = { s with
              projects := s.projects.set pid { p with status := ProjectStatus.Funded }
              balance := s.balance + v } := by
  unfold fundProject at h
  split at h
  · simp at h
  rename_i p hp
  split at h
  · simp at h
  split at h
  · simp at h
  split at h
  · simp at h
  rename_i hc hst hv
  push_neg at hc hst hv
  refine ⟨p, hp, hc, hst, hv, ?_⟩
  injection h with h
  exact h.symm

theorem submitMilestone_ok {s : EscrowState} {sender pid mid : Nat} {s' : EscrowState}
    (h : submitMilestone s sender pid mid = Except.ok s') :
    ∃ p m, s.projects[pid]? = some p ∧ p.milestones[mid]? = some m ∧
      p.freelancer = sender ∧
      (p.status = ProjectStatus.Funded ∨ p.status = ProjectStatus.Active) ∧
      m.status = MilestoneStatus.Pending ∧
      s' = { s with
              projects := s.projects.set pid
                { p with
                  milestones := p.milestones.set mid
                    { m with status := MilestoneStatus.Submitted }
                  status :=
                    if p.status = ProjectStatus.Funded then ProjectStatus.Active
                    else p.status } } := by
  unfold submitMilestone at h
  split at h
  · simp at h
  rename_i p hp
  split at h
  · simp at h
  rename_i m hm
  split at h
  · simp at h
  split at h
  · simp at h
  split at h
  · simp at h
  rename_i hf hst hms
  push_neg at hf hms
  rw [not_not] at hst
  refine ⟨p, m, hp, hm, hf, hst, hms, ?_⟩
  injection h with h
  exact h.symm

theorem releaseMilestonePayment_ok {s : EscrowState} {pid mid : Nat} {okF : Bool}
    {s' : EscrowState} (h : releaseMilestonePayment s pid mid okF = Except.ok s') :
    ∃ p m, s.projects[pid]? = some p ∧ p.milestones[mid]? = some m ∧
      m.status = MilestoneStatus.Approved ∧
      p.totalPaid + m.amount < UINT ∧ okF = true ∧ m.amount ≤ s.balance ∧
      s' = { s with
              projects := s.projects.set pid
                (completeIfPaid
                  { p with
                    milestones := p.milestones.set mid { m with status := MilestoneStatus.Paid }
                    totalPaid := p.totalPaid + m.amount })
              balance := s.balance - m.amount } := by
  unfold releaseMilestonePayment at h
  split at h
  · simp at h
  rename_i p hp
  split at h
  · simp at h
  rename_i m hm
  split at h
  · simp at h
  split at h
  · simp at h
  split at h
  · simp at h
  rename_i hap hov htr
  push_neg at hap hov
  rw [not_not] at htr
  refine ⟨p, m, hp, hm, hap, by omega, htr.1, htr.2, ?_⟩
  injection h with h
  exact h.symm

theorem approveMilestone_ok {s : EscrowState} {sender pid mid : Nat} {okF : Bool}
    {s' : EscrowState} (h : approveMilestone s sender pid mid okF = Except.ok s') :
    ∃ p m, s.projects[pid]? = some p ∧ p.milestones[mid]? = some m ∧
      p.client = sender ∧ p.status = ProjectStatus.Active ∧
      m.status = MilestoneStatus.Submitted ∧
      p.totalPaid + m.amount < UINT ∧ m.amount ≤ s.balance ∧
      s' = { s with
              projects := s.projects.set pid
                (completeIfPaid
                  { p with
                    milestones := p.milestones.set mid { m with status := MilestoneStatus.Paid }
                    totalPaid := p.totalPaid + m.amount })
              balance := s.balance - m.amount } := by
  unfold approveMilestone at h
  split at h
  · simp at h
  rename_i p hp
  split at h
  · simp at h
  rename_i m hm
  split at h
  · simp at h
  split at h
  · simp at h
  split at h
  · simp at h
  rename_i hc hst hms
  push_neg at hc hst hms
  obtain ⟨p1, m1, hp1, hm1, hap1, hov1, _, htr1, hs'⟩ := releaseMilestonePayment_ok h
  have hpidlt : pid < s.projects.length := (List.getElem?_eq_some.mp hp).1
  have hmidlt : mid < p.milestones.length := (List.getElem?_eq_some.mp hm).1
  have hproj1 :
      (s.projects.set pid
        { p with
          milestones := p.milestones.set mid
            { m with status := MilestoneStatus.Approved } })[pid]? =
      some { p with
             milestones := p.milestones.set mid
               { m with status := MilestoneStatus.Approved } } :=
    List.getElem?_set_self (by simpa using hpidlt)
  rw [hproj1] at hp1
  injection hp1 with hp1
  subst hp1
  have hm1' :
      (p.milestones.set mid { m with status := MilestoneStatus.Approved })[mid]? =
      some { m with status := MilestoneStatus.Approved } :=
    List.getElem?_set_self (by simpa using hmidlt)
  simp only [hm1'] at hm1
  injection hm1 with hm1
  subst hm1
  refine ⟨p, m, hp, hm, hc, hst, hms, by simpa using hov1, by simpa using htr1, ?_⟩
  rw [hs']
  simp only [List.set_set]

theorem raiseDispute_ok {s : EscrowState} {sender pid mid : Nat} {s' : EscrowState}
    (h : raiseDispute s sender pid mid = Except.ok s') :
    ∃ p m, s.projects[pid]? = some p ∧ p.milestones[mid]? = some m ∧
      (sender = p.client ∨ sender = p.freelancer) ∧
      p.status = ProjectStatus.Active ∧ m.status = MilestoneStatus.Submitted ∧
      s' = { s with
              projects := s.projects.set pid
                { p with
                  milestones := p.milestones.set mid
                    { m with status := MilestoneStatus.Disputed } }
              disputes := s.disputes ++ [⟨pid, mid, sender, false⟩] } := by
  unfold raiseDispute at h
  split at h
  · simp at h
  rename_i p hp
  split at h
  · simp at h
  rename_i m hm
  split at h
  · simp at h
  split at h
  · simp at h
  split at h
  · simp at h
  rename_i hwho hst hms
  push_neg at hms
  rw [not_not] at hwho
  refine ⟨p, m, hp, hm, hwho, not_not.mp hst, hms, ?_⟩
  injection h with h
  exact h.symm

theorem resolveDispute_ok {s : EscrowState} {sender did pct : Nat} {okF okC : Bool}
    {s' : EscrowState} (h : resolveDispute s sender did pct okF okC = Except.ok s') :
    ∃ d p m, s.disputes[did]? = some d ∧ d.resolved = false ∧
      s.projects[d.projectId]? = some p ∧ sender = p.arbitrator ∧
      p.milestones[d.milestoneId]? = some m ∧ m.status = MilestoneStatus.Disputed ∧
      pct ≤ 100 ∧
      p.totalPaid + (splitAmounts m.amount pct).1 < UINT ∧
      s' = { s with
              projects := s.projects.set d.projectId
                (completeIfPaid
                  { p with
                    milestones := p.milestones.set d.milestoneId
                      (resolvedMilestone m (splitAmounts m.amount pct).1)
                    totalPaid := resolvedTotalPaid p m (splitAmounts m.amount pct).1 })
              disputes := s.disputes.set did { d with resolved := true }
              balance := s.balance -
                ((splitAmounts m.amount pct).1 + (splitAmounts m.amount pct).2) } := by
  unfold resolveDispute at h
  split at h
  · simp at h
  rename_i d hd
  split at h
  · simp at h
  rename_i hres
  split at h
  · split at h <;> simp at h
  rename_i p hp
  split at h
  · simp at h
  rename_i harb
  split at h
  · simp at h
  rename_i m hm
  split at h
  · simp at h
  split at h
  · simp at h
  split at h
  · simp at h
  rename_i hms hpct hovm
  simp only [] at h
  split at h
  · simp at h
  split at h
  · simp at h
  split at h
  · simp at h
  rename_i hovp htrF htrC
  push_neg at harb hms hpct hovm hovp
  refine ⟨d, p, m, hd, by simpa using hres, hp, harb, hm, hms, by omega, by omega, ?_⟩
  injection h with h
  exact h.symm

theorem weight_le_sum_of_mem {α : Type} (f : α → Nat) {l : List α} {a : α}
    (h : a ∈ l) : f a ≤ (l.map f).sum :=
  List.single_le_sum (fun x _ => Nat.zero_le x) _ (List.mem_map_of_mem f h)

theorem ProjInv.budget_pos {p : Project} (hp : ProjInv p) : 0 < p.totalBudget := by
  obtain ⟨m, hm⟩ := List.exists_mem_of_ne_nil _ hp.ms_nonempty
  have h1 : m.amount ≤ totalAmount p.milestones := weight_le_sum_of_mem Milestone.amount hm
  have h2 := hp.amounts_pos m hm
  have h3 := hp.budget_eq
  omega

theorem sum_map_set_of_getElem {α : Type} (f : α → Nat) {l : List α} {i : Nat} {a : α}
    (ha : l[i]? = some a) (b : α) :
    ((l.set i b).map f).sum + f a = (l.map f).sum + f b := by
  obtain ⟨hlt, rfl⟩ := List.getElem?_eq_some.mp ha
  exact sum_map_set f l i b hlt

theorem set_ne_nil {α : Type} {l : List α} {i : Nat} {a : α} (h : l ≠ []) :
    l.set i a ≠ [] := by
  intro hc
  apply h
  have := congrArg List.length hc
  simp only [List.length_set, List.length_nil] at this
  exact List.eq_nil_of_length_eq_zero this

theorem completeIfPaid_milestones (p : Project) :
    (completeIfPaid p).milestones = p.milestones := by
  unfold completeIfPaid; split <;> rfl

theorem completeIfPaid_totalPaid (p : Project) :
    (completeIfPaid p).totalPaid = p.totalPaid := by
  unfold completeIfPaid; split <;> rfl

theorem completeIfPaid_totalBudget (p : Project) :
    (completeIfPaid p).totalBudget = p.totalBudget := by
  unfold completeIfPaid; split <;> rfl

theorem completeIfPaid_client (p : Project) :
    (completeIfPaid p).client = p.client := by
  unfold completeIfPaid; split <;> rfl

theorem completeIfPaid_freelancer (p : Project) :
    (completeIfPaid p).freelancer = p.freelancer := by
  unfold completeIfPaid; split <;> rfl

theorem completeIfPaid_arbitrator (p : Project) :
    (completeIfPaid p).arbitrator = p.arbitrator := by
  unfold completeIfPaid; split <;> rfl

theorem completeIfPaid_status_cases (p : Project) :
    (completeIfPaid p).status = ProjectStatus.Completed ∨
      (completeIfPaid p).status = p.status := by
  unfold completeIfPaid; split
  · exact Or.inl rfl
  · exact Or.inr rfl

theorem completeIfPaid_iff {p : Project} (h : p.status ≠ ProjectStatus.Completed) :
    (completeIfPaid p).status = ProjectStatus.Completed ↔
      (completeIfPaid p).totalPaid = (completeIfPaid p).totalBudget := by
  unfold completeIfPaid
  split
  · simpa
  · rename_i hne
    constructor
    · intro hc; exact absurd hc h
    · intro hc; exact absurd hc hne

theorem splitAmounts_le {a pct : Nat} (h : pct ≤ 100) : (splitAmounts a pct).1 ≤ a := by
  unfold splitAmounts
  calc a * pct / 100 ≤ a * 100 / 100 :=
        Nat.div_le_div_right (Nat.mul_le_mul_left a h)
    _ = a := Nat.mul_div_cancel a (by omega)

theorem splitAmounts_add {a pct : Nat} (h : pct ≤ 100) :
    (splitAmounts a pct).1 + (splitAmounts a pct).2 = a := by
  have h1 := splitAmounts_le (a := a) h
  simp only [splitAmounts] at h1 ⊢
  omega

theorem heldAmount_eq_total {ms : List Milestone}
    (h : ∀ m ∈ ms, m.status = MilestoneStatus.Pending) :
    heldAmount ms = totalAmount ms := by
  unfold heldAmount totalAmount
  rw [List.map_congr_left]
  intro m hm
  have := h m hm
  simp [heldWeight, this]

theorem unpaidAmount_eq_total {ms : List Milestone}
    (h : ∀ m ∈ ms, m.status = MilestoneStatus.Pending) :
    unpaidAmount ms = totalAmount ms := by
  unfold unpaidAmount totalAmount
  rw [List.map_congr_left]
  intro m hm
  have := h m hm
  simp [unpaidWeight, this]

/-! ## Preservation of the invariant -/

theorem inv_create {s s' : EscrowState} {sender f a : Nat} {ams : List Nat}
    (hs : LedgerInv s) (h : createProject s sender f a ams = Except.ok s') :
    LedgerInv s' := by
  obtain ⟨hf, ha, hne, hfs, tb, htb, rfl⟩ := createProject_ok h
  obtain ⟨htb_eq, hpos, htbpos⟩ := sumBudget_ok htb
  have htb0 : 0 < tb := htbpos hne
  have hms : ∀ m ∈ ams.map (fun x => (⟨x, MilestoneStatus.Pending⟩ : Milestone)),
      m.status = MilestoneStatus.Pending := by
    intro m hm
    obtain ⟨x, hx, rfl⟩ := List.mem_map.mp hm
    rfl
  have htot : totalAmount (ams.map fun x => (⟨x, MilestoneStatus.Pending⟩ : Milestone)) =
      ams.sum := by
    simp only [totalAmount, List.map_map]
    have hcomp : (Milestone.amount ∘ fun x => (⟨x, MilestoneStatus.Pending⟩ : Milestone)) =
        fun x => x := rfl
    rw [hcomp, List.map_id']
  constructor
  · intro p hp
    rcases List.mem_append.mp hp with hp' | hp'
    · exact hs.projs p hp'
    · rw [List.mem_singleton] at hp'
      subst hp'
      refine ProjInv.mk ?_ ?_ ?_ ?_ ?_ ?_ ?_ ?_ <;> dsimp only
      · rw [htot]; omega
      · intro m hm
        obtain ⟨x, hx, rfl⟩ := List.mem_map.mp hm
        exact hpos x hx
      · simp only [ne_eq, List.map_eq_nil_iff]
        exact hne
      · rw [unpaidAmount_eq_total hms, htot]; omega
      · constructor
        · intro hc; exact absurd hc (by decide)
        · intro hc; omega
      · intro _; exact hms
      · intro _; rfl
      · intro m hm
        rw [hms m hm]
        decide
  · dsimp only
    simp only [custody, List.map_append, List.map_cons, List.map_nil,
      List.sum_append, List.sum_cons, List.sum_nil]
    have hzero : projectContribution
        { client := sender, freelancer := f, arbitrator := a, totalBudget := tb,
          totalPaid := 0,
          milestones := ams.map fun x => (⟨x, MilestoneStatus.Pending⟩ : Milestone),
          status := ProjectStatus.Created } = 0 := by
      simp [projectContribution]
    rw [hzero]
    have hb := hs.bal
    simp only [custody] at hb
    omega

theorem inv_fund {s s' : EscrowState} {sender pid v : Nat}
    (hs : LedgerInv s) (h : fundProject s sender pid v = Except.ok s') :
    LedgerInv s' := by
  obtain ⟨p, hp, hc, hst, hv, rfl⟩ := fundProject_ok h
  have hpInv := hs.projs p (getElem?_mem_of_some hp)
  have hpend := hpInv.prefunded_pending (Or.inl hst)
  constructor
  · intro q hq
    refine forall_mem_set (hs.projs) ?_ q hq
    refine ProjInv.mk ?_ ?_ ?_ ?_ ?_ ?_ ?_ ?_ <;> dsimp only
    · exact hpInv.budget_eq
    · exact hpInv.amounts_pos
    · exact hpInv.ms_nonempty
    · exact hpInv.paid_bound
    · constructor
      · intro hc'; exact absurd hc' (by decide)
      · intro hc'
        have h0 := hpInv.prefunded_zero (Or.inl hst)
        have hb := hpInv.budget_pos
        omega
    · intro _; exact hpend
    · intro _; exact hpInv.prefunded_zero (Or.inl hst)
    · exact hpInv.no_approved
  · have hchg := sum_map_set_of_getElem projectContribution hp
      { p with status := ProjectStatus.Funded }
    have hold : projectContribution p = 0 := by
      simp [projectContribution, hst]
    have hnew : projectContribution { p with status := ProjectStatus.Funded } =
        p.totalBudget := by
      simp only [projectContribution]
      rw [if_neg (by simp)]
      show heldAmount p.milestones = p.totalBudget
      rw [heldAmount_eq_total hpend, ← hpInv.budget_eq]
    have hb := hs.bal
    dsimp only
    simp only [custody] at hchg hb ⊢
    omega

theorem projectContribution_eq {p : Project} (h : p.status ≠ ProjectStatus.Created) :
    projectContribution p = heldAmount p.milestones := by
  simp [projectContribution, h]

theorem inv_submit {s s' : EscrowState} {sender pid mid : Nat}
    (hs : LedgerInv s) (h : submitMilestone s sender pid mid = Except.ok s') :
    LedgerInv s' := by
  obtain ⟨p, m, hp, hm, hf, hst, hms, rfl⟩ := submitMilestone_ok h
  have hpInv := hs.projs p (getElem?_mem_of_some hp)
  have hstatus' :
      (if p.status = ProjectStatus.Funded then ProjectStatus.Active else p.status) =
        ProjectStatus.Active := by
    rcases hst with h1 | h1 <;> simp [h1]
  have hm_pos := hpInv.amounts_pos m (getElem?_mem_of_some hm)
  have htot := sum_map_set_of_getElem Milestone.amount hm
    { m with status := MilestoneStatus.Submitted }
  have hunp := sum_map_set_of_getElem unpaidWeight hm
    { m with status := MilestoneStatus.Submitted }
  have hheld := sum_map_set_of_getElem heldWeight hm
    { m with status := MilestoneStatus.Submitted }
  have hwm : unpaidWeight m = m.amount := by simp [unpaidWeight, hms]
  have hwm' : unpaidWeight { m with status := MilestoneStatus.Submitted } = m.amount := by
    simp [unpaidWeight]
  have hhm : heldWeight m = m.amount := by simp [heldWeight, hms]
  have hhm' : heldWeight { m with status := MilestoneStatus.Submitted } = m.amount := by
    simp [heldWeight]
  have hpaid_ne : p.totalPaid ≠ p.totalBudget := by
    rcases hst with h1 | h1
    · have h0 := hpInv.prefunded_zero (Or.inr h1)
      have hbp := hpInv.budget_pos
      omega
    · intro he
      have h2 := hpInv.completed_iff.mpr he
      rw [h1] at h2
      exact absurd h2 (by decide)
  constructor
  · intro q hq
    refine forall_mem_set (hs.projs) ?_ q hq
    refine ProjInv.mk ?_ ?_ ?_ ?_ ?_ ?_ ?_ ?_ <;> dsimp only
    · simp only [totalAmount] at *
      rw [hpInv.budget_eq]
      simp only [totalAmount]
      omega
    · refine forall_mem_set hpInv.amounts_pos ?_
      exact hm_pos
    · exact set_ne_nil hpInv.ms_nonempty
    · simp only [unpaidAmount] at *
      have := hpInv.paid_bound
      simp only [unpaidAmount] at this
      omega
    · rw [hstatus']
      constructor
      · intro hc; exact absurd hc (by decide)
      · intro hc; exact absurd hc hpaid_ne
    · rw [hstatus']
      intro hcase
      rcases hcase with hcase | hcase <;> exact absurd hcase (by decide)
    · rw [hstatus']
      intro hcase
      rcases hcase with hcase | hcase <;> exact absurd hcase (by decide)
    · refine forall_mem_set hpInv.no_approved ?_
      simp
  · have hchg := sum_map_set_of_getElem projectContribution hp
      { p with
        milestones := p.milestones.set mid { m with status := MilestoneStatus.Submitted }
        status :=
          if p.status = ProjectStatus.Funded then ProjectStatus.Active else p.status }
    have hpnc : p.status ≠ ProjectStatus.Created := by
      rcases hst with h1 | h1 <;> simp [h1]
    have hold := projectContribution_eq hpnc
    have hnew : projectContribution
        { p with
          milestones := p.milestones.set mid { m with status := MilestoneStatus.Submitted }
          status :=
            if p.status = ProjectStatus.Funded then ProjectStatus.Active else p.status } =
        heldAmount
          (p.milestones.set mid { m with status := MilestoneStatus.Submitted }) := by
      refine projectContribution_eq ?_
      dsimp only
      rw [hstatus']
      decide
    have hb := hs.bal
    dsimp only
    simp only [custody] at hchg hb ⊢
    simp only [heldAmount] at *
    omega

theorem inv_dispute {s s' : EscrowState} {sender pid mid : Nat}
    (hs : LedgerInv s) (h : raiseDispute s sender pid mid = Except.ok s') :
    LedgerInv s' := by
  obtain ⟨p, m, hp, hm, hwho, hst, hms, rfl⟩ := raiseDispute_ok h
  have hpInv := hs.projs p (getElem?_mem_of_some hp)
  have hm_pos := hpInv.amounts_pos m (getElem?_mem_of_some hm)
  have htot := sum_map_set_of_getElem Milestone.amount hm
    { m with status := MilestoneStatus.Disputed }
  have hunp := sum_map_set_of_getElem unpaidWeight hm
    { m with status := MilestoneStatus.Disputed }
  have hheld := sum_map_set_of_getElem heldWeight hm
    { m with status := MilestoneStatus.Disputed }
  have hwm : unpaidWeight m = m.amount := by simp [unpaidWeight, hms]
  have hwm' : unpaidWeight { m with status := MilestoneStatus.Disputed } = m.amount := by
    simp [unpaidWeight]
  have hhm : heldWeight m = m.amount := by simp [heldWeight, hms]
  have hhm' : heldWeight { m with status := MilestoneStatus.Disputed } = m.amount := by
    simp [heldWeight]
  have hpaid_ne : p.totalPaid ≠ p.totalBudget := by
    intro he
    have h2 := hpInv.completed_iff.mpr he
    rw [hst] at h2
    exact absurd h2 (by decide)
  constructor
  · intro q hq
    refine forall_mem_set (hs.projs) ?_ q hq
    refine ProjInv.mk ?_ ?_ ?_ ?_ ?_ ?_ ?_ ?_ <;> dsimp only
    · simp only [totalAmount] at *
      rw [hpInv.budget_eq]
      simp only [totalAmount]
      omega
    · refine forall_mem_set hpInv.amounts_pos ?_
      exact hm_pos
    · exact set_ne_nil hpInv.ms_nonempty
    · simp only [unpaidAmount] at *
      have := hpInv.paid_bound
      simp only [unpaidAmount] at this
      omega
    · rw [hst]
      constructor
      · intro hc; exact absurd hc (by decide)
      · intro hc; exact absurd hc hpaid_ne
    · rw [hst]
      intro hcase
      rcases hcase with hcase | hcase <;> exact absurd hcase (by decide)
    · rw [hst]
      intro hcase
      rcases hcase with hcase | hcase <;> exact absurd hcase (by decide)
    · refine forall_mem_set hpInv.no_approved ?_
      simp
  · have hchg := sum_map_set_of_getElem projectContribution hp
      { p with
        milestones := p.milestones.set mid { m with status := MilestoneStatus.Disputed } }
    have hpnc : p.status ≠ ProjectStatus.Created := by simp [hst]
    have hold := projectContribution_eq hpnc
    have hnew : projectContribution
        { p with
          milestones := p.milestones.set mid { m with status := MilestoneStatus.Disputed } } =
        heldAmount (p.milestones.set mid { m with status := MilestoneStatus.Disputed }) := by
      refine projectContribution_eq ?_
      dsimp only
      simp [hst]
    have hb := hs.bal
    dsimp only
    simp only [custody] at hchg hb ⊢
    simp only [heldAmount] at *
    omega

theorem projInv_completeIfPaid {p : Project}
    (budget_eq : p.totalBudget = totalAmount p.milestones)
    (amounts_pos : ∀ m ∈ p.milestones, 0 < m.amount)
    (ms_nonempty : p.milestones ≠ [])
    (paid_bound : p.totalPaid + unpaidAmount p.milestones ≤ p.totalBudget)
    (hnComp : p.status ≠ ProjectStatus.Completed)
    (hnCr : p.status ≠ ProjectStatus.Created)
    (hnF : p.status ≠ ProjectStatus.Funded)
    (no_approved : ∀ m ∈ p.milestones, m.status ≠ MilestoneStatus.Approved) :
    ProjInv (completeIfPaid p) := by
  refine ProjInv.mk ?_ ?_ ?_ ?_ ?_ ?_ ?_ ?_
  · rw [completeIfPaid_totalBudget, completeIfPaid_milestones]
    exact budget_eq
  · rw [completeIfPaid_milestones]
    exact amounts_pos
  · rw [completeIfPaid_milestones]
    exact ms_nonempty
  · rw [completeIfPaid_totalPaid, completeIfPaid_milestones, completeIfPaid_totalBudget]
    exact paid_bound
  · exact completeIfPaid_iff hnComp
  · intro hcase
    rcases completeIfPaid_status_cases p with hcs | hcs <;> rw [hcs] at hcase
    · rcases hcase with h1 | h1 <;> exact absurd h1 (by decide)
    · rcases hcase with h1 | h1
      · exact absurd h1 hnCr
      · exact absurd h1 hnF
  · intro hcase
    rcases completeIfPaid_status_cases p with hcs | hcs <;> rw [hcs] at hcase
    · rcases hcase with h1 | h1 <;> exact absurd h1 (by decide)
    · rcases hcase with h1 | h1
      · exact absurd h1 hnCr
      · exact absurd h1 hnF
  · rw [completeIfPaid_milestones]
    exact no_approved

theorem projectContribution_completeIfPaid {p : Project}
    (h : p.status ≠ ProjectStatus.Created) :
    projectContribution (completeIfPaid p) = heldAmount p.milestones := by
  have hnc : (completeIfPaid p).status ≠ ProjectStatus.Created := by
    rcases completeIfPaid_status_cases p with hcs | hcs <;> rw [hcs]
    · decide
    · exact h
  rw [projectContribution_eq hnc, completeIfPaid_milestones]

theorem inv_approve {s s' : EscrowState} {sender pid mid : Nat} {okF : Bool}
    (hs : LedgerInv s) (h : approveMilestone s sender pid mid okF = Except.ok s') :
    LedgerInv s' := by
  obtain ⟨p, m, hp, hm, hc, hst, hms, hov, htr, rfl⟩ := approveMilestone_ok h
  have hpInv := hs.projs p (getElem?_mem_of_some hp)
  have hm_pos := hpInv.amounts_pos m (getElem?_mem_of_some hm)
  have htot := sum_map_set_of_getElem Milestone.amount hm
    { m with status := MilestoneStatus.Paid }
  have hunp := sum_map_set_of_getElem unpaidWeight hm
    { m with status := MilestoneStatus.Paid }
  have hheld := sum_map_set_of_getElem heldWeight hm
    { m with status := MilestoneStatus.Paid }
  have hwm : unpaidWeight m = m.amount := by simp [unpaidWeight, hms]
  have hwm' : unpaidWeight { m with status := MilestoneStatus.Paid } = 0 := by
    simp [unpaidWeight]
  have hhm : heldWeight m = m.amount := by simp [heldWeight, hms]
  have hhm' : heldWeight { m with status := MilestoneStatus.Paid } = 0 := by
    simp [heldWeight]
  constructor
  · intro q hq
    refine forall_mem_set (hs.projs) ?_ q hq
    refine projInv_completeIfPaid ?_ ?_ ?_ ?_ ?_ ?_ ?_ ?_ <;> dsimp only
    · rw [hpInv.budget_eq]
      simp only [totalAmount] at *
      omega
    · exact forall_mem_set hpInv.amounts_pos hm_pos
    · exact set_ne_nil hpInv.ms_nonempty
    · have := hpInv.paid_bound
      simp only [unpaidAmount] at *
      omega
    · rw [hst]; decide
    · rw [hst]; decide
    · rw [hst]; decide
    · refine forall_mem_set hpInv.no_approved ?_
      simp
  · have hchg := sum_map_set_of_getElem projectContribution hp
      (completeIfPaid
        { p with
          milestones := p.milestones.set mid { m with status := MilestoneStatus.Paid }
          totalPaid := p.totalPaid + m.amount })
    have hold := projectContribution_eq (p := p) (by rw [hst]; decide)
    have hnew := projectContribution_completeIfPaid
      (p :=
        { p with
          milestones := p.milestones.set mid { m with status := MilestoneStatus.Paid }
          totalPaid := p.totalPaid + m.amount })
      (by dsimp only; rw [hst]; decide)
    have hb := hs.bal
    dsimp only
    dsimp only at hnew
    rw [hold, hnew] at hchg
    simp only [custody] at hchg hb ⊢
    simp only [heldAmount] at hchg hheld
    omega

theorem resolvedMilestone_amount (m : Milestone) (fA : Nat) :
    (resolvedMilestone m fA).amount = m.amount := by
  unfold resolvedMilestone
  split
  · rfl
  split <;> rfl

theorem resolvedMilestone_status (m : Milestone) (fA : Nat) :
    (resolvedMilestone m fA).status = MilestoneStatus.Paid ∨
      (resolvedMilestone m fA).status = MilestoneStatus.Refunded := by
  unfold resolvedMilestone
  split
  · exact Or.inl rfl
  split
  · exact Or.inr rfl
  · exact Or.inl rfl

theorem resolvedTotalPaid_bound {p : Project} {m : Milestone} {fA : Nat}
    (hle : fA ≤ m.amount) :
    resolvedTotalPaid p m fA + unpaidWeight (resolvedMilestone m fA) ≤
      p.totalPaid + m.amount := by
  have hzP : ∀ m' : Milestone,
      unpaidWeight { m' with status := MilestoneStatus.Paid } = 0 := by
    intro m'; simp [unpaidWeight]
  have hzR : ∀ m' : Milestone,
      unpaidWeight { m' with status := MilestoneStatus.Refunded } = m'.amount := by
    intro m'; simp [unpaidWeight]
  unfold resolvedTotalPaid resolvedMilestone
  by_cases h1 : fA = m.amount
  · rw [if_pos h1, if_pos h1, hzP]
    omega
  · rw [if_neg h1, if_neg h1]
    by_cases h2 : fA = 0
    · rw [if_pos h2, if_pos h2, hzR]
    · rw [if_neg h2, if_neg h2, hzP]
      omega

theorem inv_resolve {s s' : EscrowState} {sender did pct : Nat} {okF okC : Bool}
    (hs : LedgerInv s) (h : resolveDispute s sender did pct okF okC = Except.ok s') :
    LedgerInv s' := by
  obtain ⟨d, p, m, hd, hres, hp, harb, hm, hms, hpct, hov, rfl⟩ := resolveDispute_ok h
  have hpInv := hs.projs p (getElem?_mem_of_some hp)
  have hm_pos := hpInv.amounts_pos m (getElem?_mem_of_some hm)
  have hfa_le : (splitAmounts m.amount pct).1 ≤ m.amount := splitAmounts_le hpct
  have hadd : (splitAmounts m.amount pct).1 + (splitAmounts m.amount pct).2 = m.amount :=
    splitAmounts_add hpct
  have htot := sum_map_set_of_getElem Milestone.amount hm
    (resolvedMilestone m (splitAmounts m.amount pct).1)
  have hunp := sum_map_set_of_getElem unpaidWeight hm
    (resolvedMilestone m (splitAmounts m.amount pct).1)
  have hheld := sum_map_set_of_getElem heldWeight hm
    (resolvedMilestone m (splitAmounts m.amount pct).1)
  have hwm : unpaidWeight m = m.amount := by simp [unpaidWeight, hms]
  have hhm : heldWeight m = m.amount := by simp [heldWeight, hms]
  have hma := resolvedMilestone_amount m (splitAmounts m.amount pct).1
  have hhm' : heldWeight (resolvedMilestone m (splitAmounts m.amount pct).1) = 0 := by
    rcases resolvedMilestone_status m (splitAmounts m.amount pct).1 with h1 | h1 <;>
      simp [heldWeight, h1]
  have hkey := resolvedTotalPaid_bound (p := p) (m := m) hfa_le
  have hmw_le : unpaidWeight m ≤ unpaidAmount p.milestones := weight_le_sum unpaidWeight hm
  have hnComp : p.status ≠ ProjectStatus.Completed := by
    intro he
    have h2 := hpInv.completed_iff.mp he
    have h3 := hpInv.paid_bound
    omega
  have hnCr : p.status ≠ ProjectStatus.Created := by
    intro he
    have h2 := hpInv.prefunded_pending (Or.inl he) m (getElem?_mem_of_some hm)
    rw [hms] at h2
    exact absurd h2 (by decide)
  have hnF : p.status ≠ ProjectStatus.Funded := by
    intro he
    have h2 := hpInv.prefunded_pending (Or.inr he) m (getElem?_mem_of_some hm)
    rw [hms] at h2
    exact absurd h2 (by decide)
  constructor
  · intro q hq
    refine forall_mem_set (hs.projs) ?_ q hq
    refine projInv_completeIfPaid ?_ ?_ ?_ ?_ ?_ ?_ ?_ ?_ <;> dsimp only
    · rw [hpInv.budget_eq]
      simp only [totalAmount] at *
      omega
    · refine forall_mem_set hpInv.amounts_pos ?_
      rw [hma]
      exact hm_pos
    · exact set_ne_nil hpInv.ms_nonempty
    · have := hpInv.paid_bound
      simp only [unpaidAmount] at *
      omega
    · exact hnComp
    · exact hnCr
    · exact hnF
    · refine forall_mem_set hpInv.no_approved ?_
      rcases resolvedMilestone_status m (splitAmounts m.amount pct).1 with h1 | h1 <;>
        rw [h1] <;> decide
  · have hchg := sum_map_set_of_getElem projectContribution hp
      (completeIfPaid
        { p with
          milestones := p.milestones.set d.milestoneId
            (resolvedMilestone m (splitAmounts m.amount pct).1)
          totalPaid := resolvedTotalPaid p m (splitAmounts m.amount pct).1 })
    have hold := projectContribution_eq (p := p) hnCr
    have hnew := projectContribution_completeIfPaid
      (p :=
        { p with
          milestones := p.milestones.set d.milestoneId
            (resolvedMilestone m (splitAmounts m.amount pct).1)
          totalPaid := resolvedTotalPaid p m (splitAmounts m.amount pct).1 })
      (by dsimp only; exact hnCr)
    have hb := hs.bal
    dsimp only
    dsimp only at hnew
    rw [hold, hnew] at hchg
    simp only [custody] at hchg hb ⊢
    simp only [heldAmount] at hchg hheld
    omega

theorem inv_step {s s' : EscrowState} {op : Op} (hs : LedgerInv s)
    (h : applyOp s op = Except.ok s') : LedgerInv s' := by
  cases op with
  | create sender f a ams => exact inv_create hs h
  | fund sender pid v => exact inv_fund hs h
  | submit sender pid mid => exact inv_submit hs h
  | approve sender pid mid okF => exact inv_approve hs h
  | dispute sender pid mid => exact inv_dispute hs h
  | resolve sender did pct okF okC => exact inv_resolve hs h

theorem inv_initial : LedgerInv initialState := by
  constructor
  · intro p hp
    simp [initialState] at hp
  · simp [initialState, custody]

theorem reachableFrom_inv {s t : EscrowState} (hs : LedgerInv s)
    (h : ReachableFrom s t) : LedgerInv t := by
  induction h with
  | refl => exact hs
  | step h1 h2 ih => exact inv_step ih h2

theorem reachable_inv {s : EscrowState} (h : Reachable s) : LedgerInv s :=
  reachableFrom_inv inv_initial h

/-! ## Disputes are immutable once resolved -/

theorem resolved_dispute_persists {s s' : EscrowState} {op : Op}
    (h : applyOp s op = Except.ok s') {i : Nat} {d : Dispute}
    (hd : s.disputes[i]? = some d) (hres : d.resolved = true) :
    s'.disputes[i]? = some d := by
  cases op with
  | create sender f a ams =>
    obtain ⟨_, _, _, _, tb, _, rfl⟩ := createProject_ok h
    exact hd
  | fund sender pid v =>
    obtain ⟨p, _, _, _, _, rfl⟩ := fundProject_ok h
    exact hd
  | submit sender pid mid =>
    obtain ⟨p, m, _, _, _, _, _, rfl⟩ := submitMilestone_ok h
    exact hd
  | approve sender pid mid okF =>
    obtain ⟨p, m, _, _, _, _, _, _, _, rfl⟩ := approveMilestone_ok h
    exact hd
  | dispute sender pid mid =>
    obtain ⟨p, m, _, _, _, _, _, rfl⟩ := raiseDispute_ok h
    have hlt : i < s.disputes.length := (List.getElem?_eq_some.mp hd).1
    dsimp only
    rw [List.getElem?_append, if_pos hlt]
    exact hd
  | resolve sender did pct okF okC =>
    obtain ⟨d', p, m, hd', hres', _, _, _, _, _, _, rfl⟩ := resolveDispute_ok h
    dsimp only
    by_cases hij : did = i
    · subst hij
      rw [hd'] at hd
      injection hd with hd
      subst hd
      rw [hres] at hres'
      exact absurd hres' (by decide)
    · rw [List.getElem?_set_ne hij]
      exact hd

theorem resolved_dispute_persists_star {s t : EscrowState}
    (h : ReachableFrom s t) {i : Nat} {d : Dispute}
    (hd : s.disputes[i]? = some d) (hres : d.resolved = true) :
    t.disputes[i]? = some d := by
  induction h with
  | refl => exact hd
  | step h1 h2 ih => exact resolved_dispute_persists h2 ih hres

theorem resolveDispute_already_resolved {s : EscrowState} {sender did pct : Nat}
    {okF okC : Bool} {d : Dispute} (hd : s.disputes[did]? = some d)
    (hres : d.resolved = true) :
    resolveDispute s sender did pct okF okC =
      Except.error "Dispute already resolved" := by
  unfold resolveDispute
  rw [hd]
  simp [hres]

theorem resolveDispute_marks_resolved {s s' : EscrowState} {sender did pct : Nat}
    {okF okC : Bool} (h : resolveDispute s sender did pct okF okC = Except.ok s') :
    ∃ d, s'.disputes[did]? = some d ∧ d.resolved = true := by
  obtain ⟨d, p, m, hd, _, _, _, _, _, _, _, rfl⟩ := resolveDispute_ok h
  refine ⟨{ d with resolved := true }, ?_, rfl⟩
  dsimp only
  exact List.getElem?_set_self (List.getElem?_eq_some.mp hd).1

theorem demoA1_reachable : Reachable demoA1 :=
  ReachableFrom.step ReachableFrom.refl
    (show applyOp initialState (Op.create 1 2 3 [10]) = Except.ok demoA1 from rfl)

theorem demoA2_reachable : Reachable demoA2 :=
  ReachableFrom.step demoA1_reachable
    (show applyOp demoA1 (Op.fund 1 0 10) = Except.ok demoA2 from rfl)

theorem demoA3_reachable : Reachable demoA3 :=
  ReachableFrom.step demoA2_reachable
    (show applyOp demoA2 (Op.submit 2 0 0) = Except.ok demoA3 from rfl)

theorem demoA4_reachable : Reachable demoA4 :=
  ReachableFrom.step demoA3_reachable
    (show applyOp demoA3 (Op.dispute 2 0 0) = Except.ok demoA4 from rfl)

theorem demoA5_reachable : Reachable demoA5 :=
  ReachableFrom.step demoA4_reachable
    (show applyOp demoA4 (Op.resolve 3 0 50 true true) = Except.ok demoA5 from rfl)

theorem demoB1_reachable : Reachable demoB1 :=
  ReachableFrom.step ReachableFrom.refl
    (show applyOp initialState (Op.create 1 2 3 [1, 1]) = Except.ok demoB1 from rfl)

theorem demoB2_reachable : Reachable demoB2 :=
  ReachableFrom.step demoB1_reachable
    (show applyOp demoB1 (Op.fund 1 0 2) = Except.ok demoB2 from rfl)

theorem demoB3_reachable : Reachable demoB3 :=
  ReachableFrom.step demoB2_reachable
    (show applyOp demoB2 (Op.submit 2 0 0) = Except.ok demoB3 from rfl)

theorem demoB4_reachable : Reachable demoB4 :=
  ReachableFrom.step demoB3_reachable
    (show applyOp demoB3 (Op.dispute 2 0 0) = Except.ok demoB4 from rfl)

theorem demoB5_reachable : Reachable demoB5 :=
  ReachableFrom.step demoB4_reachable
    (show applyOp demoB4 (Op.resolve 3 0 0 true true) = Except.ok demoB5 from rfl)

theorem demoC1_reachable : Reachable demoC1 :=
  ReachableFrom.step ReachableFrom.refl
    (show applyOp initialState (Op.create 1 2 3 [1]) = Except.ok demoC1 from rfl)

theorem demoC2_reachable : Reachable demoC2 :=
  ReachableFrom.step demoC1_reachable
    (show applyOp demoC1 (Op.fund 1 0 1) = Except.ok demoC2 from rfl)

theorem demoC3_reachable : Reachable demoC3 :=
  ReachableFrom.step demoC2_reachable
    (show applyOp demoC2 (Op.submit 2 0 0) = Except.ok demoC3 from rfl)

theorem demoC4_reachable : Reachable demoC4 :=
  ReachableFrom.step demoC3_reachable
    (show applyOp demoC3 (Op.dispute 2 0 0) = Except.ok demoC4 from rfl)

theorem demoC5_reachable : Reachable demoC5 :=
  ReachableFrom.step demoC4_reachable
    (show applyOp demoC4 (Op.resolve 3 0 50 true true) = Except.ok demoC5 from rfl)

theorem demoD7_reachable : Reachable demoD7 :=
  ReachableFrom.step (ReachableFrom.step (ReachableFrom.step (ReachableFrom.step
    (ReachableFrom.step (ReachableFrom.step (ReachableFrom.step ReachableFrom.refl
      (show applyOp initialState (Op.create 1 2 1 [1, 1]) = Except.ok demoD1 from rfl))
      (show applyOp demoD1 (Op.fund 1 0 2) = Except.ok demoD2 from rfl))
      (show applyOp demoD2 (Op.submit 2 0 0) = Except.ok demoD3 from rfl))
      (show applyOp demoD3 (Op.dispute 2 0 0) = Except.ok demoD4 from rfl))
      (show applyOp demoD4 (Op.resolve 1 0 100 true true) = Except.ok demoD5 from rfl))
      (show applyOp demoD5 (Op.submit 2 0 1) = Except.ok demoD6 from rfl))
      (show applyOp demoD6 (Op.approve 1 0 1 true) = Except.ok demoD7 from rfl)

/-! ## Branch behaviour of `resolveDispute` -/

theorem resolvedMilestone_refunded_iff {m : Milestone} {fA : Nat}
    (hpos : 0 < m.amount) :
    (resolvedMilestone m fA).status = MilestoneStatus.Refunded ↔ fA = 0 := by
  unfold resolvedMilestone
  by_cases h1 : fA = m.amount
  · rw [if_pos h1]
    constructor
    · intro hc
      exact absurd hc (by simp)
    · intro hc
      subst hc
      exact absurd h1 (by omega)
  · rw [if_neg h1]
    by_cases h2 : fA = 0
    · rw [if_pos h2]
      simp [h2]
    · rw [if_neg h2]
      constructor
      · intro hc
        exact absurd hc (by simp)
      · intro hc
        exact absurd hc h2

theorem resolvedMilestone_paid_of_pos {m : Milestone} {fA : Nat} (h : fA ≠ 0) :
    (resolvedMilestone m fA).status = MilestoneStatus.Paid := by
  unfold resolvedMilestone
  by_cases h1 : fA = m.amount
  · rw [if_pos h1]
  · rw [if_neg h1, if_neg h]

theorem resolvedTotalPaid_strict {p : Project} {m : Milestone} {fA : Nat}
    (h0 : fA ≠ 0) (hne : fA ≠ m.amount) :
    resolvedTotalPaid p m fA = p.totalPaid + fA := by
  unfold resolvedTotalPaid
  rw [if_neg hne, if_neg h0]

/-! ## The claims -/

/-- Claim C1, counterexample. The claimed invariant — contract balance equals
the sum of `totalBudget - totalPaid` over all not-fully-resolved projects —
fails on a reachable state: after creating a project with milestones
`[1, 1]`, funding it with 2, submitting and disputing milestone 0 and
resolving the dispute at 0 % (full refund of 1 to the client), the project
is not fully resolved (milestone 1 is still `Pending`) and not `Completed`,
so the claimed sum is `totalBudget - totalPaid = 2 - 0 = 2` under either
reading of "fully resolved", while the contract's actual balance is 1: the
refunded ether has left the contract but `totalPaid` does not record it. -/
theorem C1_counterexample :
    Reachable demoB5 ∧
    demoB5.balance ≠ specClaimedCustody demoB5 ∧
    specClaimedCustody demoB5 = 2 ∧
    (demoB5.projects.map fun p =>
      if p.status == ProjectStatus.Completed then 0
      else p.totalBudget - p.totalPaid).sum = 2 ∧
    demoB5.balance = 1 :=
  ⟨demoB5_reachable, by decide, by decide, by decide, rfl⟩

/-- Claim C1, amended. In every reachable state the contract balance equals
the custody its storage accounts for: the sum, over the projects that have
been funded (status not `Created`), of the amounts of their milestones that
are not yet in a terminal status (`Paid` or `Refunded`).  The spec's sum
`Σ (totalBudget - totalPaid)` overcounts unfunded projects and every
milestone whose dispute refunded part or all of its amount to the client. -/
theorem C1_custody_invariant {s : EscrowState} (hs : Reachable s) :
    s.balance = custody s :=
  (reachable_inv hs).bal

theorem C1_custody_invariant_witness :
    demoA5.balance = custody demoA5 ∧ custody demoA5 = 0 :=
  ⟨C1_custody_invariant demoA5_reachable, by decide⟩

/-- Claim C2. In every reachable state, every stored project has status
`Completed` exactly when its `totalPaid` equals its `totalBudget`. -/
theorem C2_completed_iff_totalPaid {s : EscrowState} (hs : Reachable s) :
    ∀ p ∈ s.projects,
      (p.status = ProjectStatus.Completed ↔ p.totalPaid = p.totalBudget) :=
  fun p hp => ((reachable_inv hs).projs p hp).completed_iff

theorem C2_completed_iff_totalPaid_witness :
    demoProjD7.status = ProjectStatus.Completed ↔
      demoProjD7.totalPaid = demoProjD7.totalBudget :=
  C2_completed_iff_totalPaid demoD7_reachable demoProjD7 (by decide)

/-- Claim C3. In every reachable state, every stored project satisfies
`0 ≤ totalPaid ≤ totalBudget`. -/
theorem C3_totalPaid_bounds {s : EscrowState} (hs : Reachable s) :
    ∀ p ∈ s.projects, 0 ≤ p.totalPaid ∧ p.totalPaid ≤ p.totalBudget := by
  intro p hp
  have h := ((reachable_inv hs).projs p hp).paid_bound
  exact ⟨Nat.zero_le _, by omega⟩

theorem C3_totalPaid_bounds_witness :
    0 ≤ demoProjA5.totalPaid ∧ demoProjA5.totalPaid ≤ demoProjA5.totalBudget :=
  C3_totalPaid_bounds demoA5_reachable demoProjA5 (by decide)

/-- Claim C4. The dispute split of `resolveDispute` (lines 343–344) is
integer-exact: for every milestone amount and every percentage in [0, 100],
`freelancerAmount = floor(amount * pct / 100)`,
`clientAmount = amount - freelancerAmount`, and the two amounts always sum
to the full milestone amount, even when `amount * pct` is not divisible by
100. -/
theorem C4_split_exact (amount pct : Nat) (h : pct ≤ 100) :
    (splitAmounts amount pct).1 = amount * pct / 100 ∧
    (splitAmounts amount pct).2 = amount - (splitAmounts amount pct).1 ∧
    (splitAmounts amount pct).1 + (splitAmounts amount pct).2 = amount :=
  ⟨rfl, rfl, splitAmounts_add h⟩

theorem C4_split_exact_witness :
    (splitAmounts 7 60).1 = 7 * 60 / 100 ∧
    (splitAmounts 7 60).2 = 7 - (splitAmounts 7 60).1 ∧
    (splitAmounts 7 60).1 + (splitAmounts 7 60).2 = 7 :=
  C4_split_exact 7 60 (by decide)

/-- Claim C5, counterexample. A successful `resolveDispute` with the nonzero
percentage 50 can still leave the milestone `Refunded`: with milestone
amount 1, the computed freelancer share `1 * 50 / 100` floors to 0, the
code's `freelancerAmount == 0` branch fires, and the milestone is marked
`Refunded` rather than `Paid` — refuting "for every nonzero
freelancerPercentage the milestone transitions to Paid". -/
theorem C5_counterexample :
    Reachable demoC4 ∧
    resolveDispute demoC4 3 0 50 true true = Except.ok demoC5 ∧
    demoC5.projects[0]? = some demoProjC5 ∧
    demoProjC5.milestones[0]? = some ⟨1, MilestoneStatus.Refunded⟩ ∧
    (50 : Nat) ≠ 0 :=
  ⟨demoC4_reachable, rfl, rfl, rfl, by decide⟩

/-- Claim C5, amended. A successful `resolveDispute` marks the disputed
milestone `Refunded` exactly when the *computed* freelancer amount
`floor(amount * pct / 100)` is zero (every created milestone has positive
amount); in particular `pct = 0` always refunds, but so does any nonzero
`pct` with `amount * pct < 100`.  Otherwise the milestone is `Paid`. -/
theorem C5_refunded_iff_zero_share {s s' : EscrowState} {sender did pct : Nat}
    {okF okC : Bool} {d : Dispute} {p : Project} {m : Milestone}
    (h : resolveDispute s sender did pct okF okC = Except.ok s')
    (hd : s.disputes[did]? = some d)
    (hp : s.projects[d.projectId]? = some p)
    (hm : p.milestones[d.milestoneId]? = some m)
    (hpos : 0 < m.amount) :
    ∃ p' m', s'.projects[d.projectId]? = some p' ∧
      p'.milestones[d.milestoneId]? = some m' ∧
      (m'.status = MilestoneStatus.Refunded ↔ m.amount * pct / 100 = 0) ∧
      (m.amount * pct / 100 ≠ 0 → m'.status = MilestoneStatus.Paid) := by
  obtain ⟨d0, p0, m0, hd0, _, hp0, _, hm0, _, _, _, rfl⟩ := resolveDispute_ok h
  rw [hd] at hd0
  injection hd0 with hd0
  subst hd0
  rw [hp] at hp0
  injection hp0 with hp0
  subst hp0
  rw [hm] at hm0
  injection hm0 with hm0
  subst hm0
  have hplt : d.projectId < s.projects.length := (List.getElem?_eq_some.mp hp).1
  have hmlt : d.milestoneId < p.milestones.length := (List.getElem?_eq_some.mp hm).1
  refine ⟨completeIfPaid
      { p with
        milestones := p.milestones.set d.milestoneId
          (resolvedMilestone m (splitAmounts m.amount pct).1)
        totalPaid := resolvedTotalPaid p m (splitAmounts m.amount pct).1 },
    resolvedMilestone m (splitAmounts m.amount pct).1, ?_, ?_, ?_, ?_⟩
  · dsimp only
    exact List.getElem?_set_self hplt
  · rw [completeIfPaid_milestones]
    dsimp only
    exact List.getElem?_set_self hmlt
  · exact resolvedMilestone_refunded_iff hpos
  · intro h0
    exact resolvedMilestone_paid_of_pos h0

theorem C5_refunded_iff_zero_share_witness :
    ∃ p' m', demoC5.projects[0]? = some p' ∧ p'.milestones[0]? = some m' ∧
      (m'.status = MilestoneStatus.Refunded ↔ (1 : Nat) * 50 / 100 = 0) ∧
      ((1 : Nat) * 50 / 100 ≠ 0 → m'.status = MilestoneStatus.Paid) :=
  C5_refunded_iff_zero_share
    (show resolveDispute demoC4 3 0 50 true true = Except.ok demoC5 from rfl)
    rfl rfl rfl (by decide)

/-- Claim C6. On a successful partial resolution — the computed freelancer
amount strictly between 0 and the milestone amount — the milestone is
marked `Paid` and the project's `totalPaid` grows by exactly the freelancer
amount; the client's refunded remainder is not added to `totalPaid`. -/
theorem C6_partial_resolution {s s' : EscrowState} {sender did pct : Nat}
    {okF okC : Bool} {d : Dispute} {p : Project} {m : Milestone}
    (h : resolveDispute s sender did pct okF okC = Except.ok s')
    (hd : s.disputes[did]? = some d)
    (hp : s.projects[d.projectId]? = some p)
    (hm : p.milestones[d.milestoneId]? = some m)
    (h0 : 0 < m.amount * pct / 100) (hlt : m.amount * pct / 100 < m.amount) :
    ∃ p' m', s'.projects[d.projectId]? = some p' ∧
      p'.milestones[d.milestoneId]? = some m' ∧
      m'.status = MilestoneStatus.Paid ∧
      p'.totalPaid = p.totalPaid + m.amount * pct / 100 := by
  obtain ⟨d0, p0, m0, hd0, _, hp0, _, hm0, _, _, _, rfl⟩ := resolveDispute_ok h
  rw [hd] at hd0
  injection hd0 with hd0
  subst hd0
  rw [hp] at hp0
  injection hp0 with hp0
  subst hp0
  rw [hm] at hm0
  injection hm0 with hm0
  subst hm0
  have hplt : d.projectId < s.projects.length := (List.getElem?_eq_some.mp hp).1
  have hmlt : d.milestoneId < p.milestones.length := (List.getElem?_eq_some.mp hm).1
  have hfa : (splitAmounts m.amount pct).1 = m.amount * pct / 100 := rfl
  refine ⟨completeIfPaid
      { p with
        milestones := p.milestones.set d.milestoneId
          (resolvedMilestone m (splitAmounts m.amount pct).1)
        totalPaid := resolvedTotalPaid p m (splitAmounts m.amount pct).1 },
    resolvedMilestone m (splitAmounts m.amount pct).1, ?_, ?_, ?_, ?_⟩
  · dsimp only
    exact List.getElem?_set_self hplt
  · rw [completeIfPaid_milestones]
    dsimp only
    exact List.getElem?_set_self hmlt
  · exact resolvedMilestone_paid_of_pos (by omega)
  · rw [completeIfPaid_totalPaid]
    dsimp only
    rw [resolvedTotalPaid_strict (by omega) (by omega), hfa]

theorem C6_partial_resolution_witness :
    ∃ p' m', demoA5.projects[0]? = some p' ∧ p'.milestones[0]? = some m' ∧
      m'.status = MilestoneStatus.Paid ∧
      p'.totalPaid = 0 + (10 : Nat) * 50 / 100 :=
  C6_partial_resolution
    (show resolveDispute demoA4 3 0 50 true true = Except.ok demoA5 from rfl)
    rfl rfl rfl (by decide) (by decide)

/-- Claim C7. A dispute is resolved at most once: after one successful
`resolveDispute` on a dispute id, every later `resolveDispute` call on the
same id — at any state reachable from that point by completed operations —
fails with "Dispute already resolved".  (A failing operation returns
`Except.error` and, by the revert semantics this embedding models, leaves
the entire ledger state unchanged.) -/
theorem C7_dispute_single_resolution {s s1 s2 : EscrowState}
    {sender did pct : Nat} {okF okC : Bool}
    (h : resolveDispute s sender did pct okF okC = Except.ok s1)
    (hreach : ReachableFrom s1 s2) :
    ∀ sender' pct' : Nat, ∀ okF' okC' : Bool,
      resolveDispute s2 sender' did pct' okF' okC' =
        Except.error "Dispute already resolved" := by
  obtain ⟨d, hd1, hres1⟩ := resolveDispute_marks_resolved h
  intro sender' pct' okF' okC'
  exact resolveDispute_already_resolved
    (resolved_dispute_persists_star hreach hd1 hres1) hres1

theorem C7_dispute_single_resolution_witness :
    resolveDispute demoA5 3 0 100 true true =
      Except.error "Dispute already resolved" :=
  C7_dispute_single_resolution
    (show resolveDispute demoA4 3 0 50 true true = Except.ok demoA5 from rfl)
    ReachableFrom.refl 3 100 true true

/-- Claim C8. `fundProject` succeeds exactly from an existing project in
status `Created`, called by that project's client, with the deposited value
equal to `totalBudget`; on success the only changes are the status moving
to `Funded` and the deposit entering the contract balance.  When the other
preconditions hold but the deposit differs from `totalBudget`, the call
fails with "Amount must match total budget" — and a failing call returns
`Except.error`, which in this embedding's revert semantics leaves the
ledger, and in particular the project's `Created` status, unchanged. -/
theorem C8_fund_preconditions (s : EscrowState) (sender pid v : Nat) :
    (∀ s', fundProject s sender pid v = Except.ok s' →
      ∃ p, s.projects[pid]? = some p ∧ p.client = sender ∧
        p.status = ProjectStatus.Created ∧ v = p.totalBudget ∧
        s' = { s with
                projects := s.projects.set pid { p with status := ProjectStatus.Funded }
                balance := s.balance + v }) ∧
    (∀ p, s.projects[pid]? = some p → p.client = sender →
      p.status = ProjectStatus.Created → v ≠ p.totalBudget →
      fundProject s sender pid v = Except.error "Amount must match total budget") := by
  constructor
  · intro s' h
    exact fundProject_ok h
  · intro p hp hc hst hv
    unfold fundProject
    rw [hp]
    dsimp only
    rw [if_neg (not_not_intro hc), if_neg (not_not_intro hst), if_pos hv]

theorem C8_fund_preconditions_witness :
    (∃ p, demoB1.projects[0]? = some p ∧ p.client = 1 ∧
      p.status = ProjectStatus.Created ∧ (2 : Nat) = p.totalBudget ∧
      demoB2 = { demoB1 with
                  projects := demoB1.projects.set 0 { p with status := ProjectStatus.Funded }
                  balance := demoB1.balance + 2 }) ∧
    fundProject demoB1 1 0 5 = Except.error "Amount must match total budget" :=
  ⟨(C8_fund_preconditions demoB1 1 0 2).1 demoB2 (by rfl),
   (C8_fund_preconditions demoB1 1 0 5).2 demoProjB1 rfl rfl rfl (by decide)⟩

/-- Claim C9. The milestone status `Approved` is never observable at rest: in
every reachable state (i.e. after any sequence of completed operations), no
stored milestone has status `Approved`, because `approveMilestone` drives a
`Submitted` milestone through `Approved` to `Paid` inside one atomic
operation. -/
theorem C9_no_approved_at_rest {s : EscrowState} (hs : Reachable s) :
    ∀ p ∈ s.projects, ∀ m ∈ p.milestones, m.status ≠ MilestoneStatus.Approved :=
  fun p hp => ((reachable_inv hs).projs p hp).no_approved

theorem C9_no_approved_at_rest_witness :
    (⟨1, MilestoneStatus.Paid⟩ : Milestone).status ≠ MilestoneStatus.Approved :=
  C9_no_approved_at_rest demoD7_reachable demoProjD7 (by decide)
    ⟨1, MilestoneStatus.Paid⟩ (by decide)

/-- Claim C10. `createProject` does not require the arbitrator to differ from
the client or the freelancer: the creation call below, whose arbitrator
argument equals the calling client (account 1), succeeds, and that account
then exercises both roles' powers — it resolves the raised dispute as the
arbitrator and approves the second milestone as the client, driving the
project to `Completed`. -/
theorem C10_arbitrator_may_coincide :
    applyOp initialState (Op.create 1 2 1 [1, 1]) = Except.ok demoD1 ∧
    demoD1.projects[0]? = some ⟨1, 2, 1, 2, 0,
      [⟨1, MilestoneStatus.Pending⟩, ⟨1, MilestoneStatus.Pending⟩],
      ProjectStatus.Created⟩ ∧
    applyOp demoD1 (Op.fund 1 0 2) = Except.ok demoD2 ∧
    applyOp demoD2 (Op.submit 2 0 0) = Except.ok demoD3 ∧
    applyOp demoD3 (Op.dispute 2 0 0) = Except.ok demoD4 ∧
    applyOp demoD4 (Op.resolve 1 0 100 true true) = Except.ok demoD5 ∧
    applyOp demoD5 (Op.submit 2 0 1) = Except.ok demoD6 ∧
    applyOp demoD6 (Op.approve 1 0 1 true) = Except.ok demoD7 ∧
    demoProjD7.client = 1 ∧ demoProjD7.arbitrator = 1 ∧
    demoProjD7.status = ProjectStatus.Completed :=
  ⟨rfl, rfl, rfl, rfl, rfl, rfl, rfl, rfl, rfl, rfl, rfl⟩
